import Mathlib

/-!
Verification development for the StructuraXR structural stress and
support-graph engine.

The definitions below are a shallow embedding of the engine's source:

* `StructureValidityAgent` (DragDrop.ts): `validateStructure`, `hasSupport`,
  `checkOverlap`, `fixFloatingBlocks`, `findSupportSurface`, working on
  `VBlock` records (`type`, `pos`, `size`).  Coordinates are embedded as
  exact rationals (`ℚ`); the JavaScript numbers in every scenario of
  interest are small decimal fractions, which `ℚ` represents exactly.
  Issue messages are abstracted into the `Issue` inductive (which issue is
  pushed, and for which index, is tracked exactly; the rendered message
  string is presentation only).  `Array.prototype.sort` with comparator
  `(a, b) => a.y - b.y` is a stable ascending sort by `y`; it is embedded
  as the stable insertion sort `sortByY`.

* `MaterialSystem` (ForceVector.ts): `MaterialLibrary`, `SimulationBlock`
  with `calculateStress`, `applyDeformation`, `resetDeformation`, `reset`,
  generic over a linear ordered field so the scalar layer stays executable.

* `FEASimulationEngine` (FloatingUI.ts): `runSimulation` (per-block step
  `blockRunStep`), `getStressColor`, `resetSimulation`, `clearVectors`.
  The geometric layer uses `ℝ` because `THREE.Vector3.normalize` and
  `distanceTo` take square roots.  `console.log` calls and mesh colour
  buffers are side effects with no bearing on the verified state and are
  not modelled.
-/

namespace StructuraXR

/-- A 3-component vector, after `THREE.Vector3`. -/
structure Vec3 (α : Type) where
  x : α
  y : α
  z : α
deriving DecidableEq

/-- Componentwise subtraction, after `THREE.Vector3.sub`. -/
def Vec3.sub {α : Type} [LinearOrderedField α] (a b : Vec3 α) : Vec3 α :=
  ⟨a.x - b.x, a.y - b.y, a.z - b.z⟩

/-- Dot product, after `THREE.Vector3.dot`. -/
def Vec3.dot {α : Type} [LinearOrderedField α] (a b : Vec3 α) : α :=
  a.x * b.x + a.y * b.y + a.z * b.z

/-- Squared length, after `THREE.Vector3.lengthSq`. -/
def Vec3.lengthSq {α : Type} [LinearOrderedField α] (v : Vec3 α) : α :=
  v.x * v.x + v.y * v.y + v.z * v.z

/-- Scalar multiplication, after `THREE.Vector3.multiplyScalar`. -/
def Vec3.smul {α : Type} [LinearOrderedField α] (v : Vec3 α) (s : α) : Vec3 α :=
  ⟨v.x * s, v.y * s, v.z * s⟩

/-! ### Support-graph validator (`StructureValidityAgent`, DragDrop.ts) -/

/-- A block as consumed by `StructureValidityAgent`: the `Block` interface
`{ type: string; pos: number[]; size: number[] }`, with the `pos` and `size`
triples embedded as `Vec3 ℚ` (so `pos.y` is `pos[1]`, `size.y` is `size[1]`). -/
structure VBlock where
  type : String
  pos : Vec3 ℚ
  size : Vec3 ℚ
deriving DecidableEq

instance : Inhabited VBlock := ⟨⟨"", ⟨0, 0, 0⟩, ⟨0, 0, 0⟩⟩⟩

/-- `checkOverlap`: half-open interval overlap test
`!(max1 < min2 || max2 < min1)`. -/
def checkOverlap (min1 max1 min2 max2 : ℚ) : Bool :=
  !(decide (max1 < min2) || decide (max2 < min1))

/-- The horizontal-footprint overlap test of `hasSupport` and
`findSupportSurface`: `checkOverlap` on the X extents and on the Z extents. -/
def footprintsOverlap (block other : VBlock) : Bool :=
  checkOverlap (block.pos.x - block.size.x / 2) (block.pos.x + block.size.x / 2)
      (other.pos.x - other.size.x / 2) (other.pos.x + other.size.x / 2) &&
    checkOverlap (block.pos.z - block.size.z / 2) (block.pos.z + block.size.z / 2)
      (other.pos.z - other.size.z / 2) (other.pos.z + other.size.z / 2)

/-- The grounding test of `hasSupport`:
`Math.abs(y - height / 2) < 0.1`. -/
def onGround (block : VBlock) : Bool :=
  decide (|block.pos.y - block.size.y / 2| < 1 / 10)

/-- The vertical adjacency test of `hasSupport`:
`Math.abs(bottomY - otherTopY) < 0.1`. -/
def verticallyAligned (block other : VBlock) : Bool :=
  decide (|(block.pos.y - block.size.y / 2) - (other.pos.y + other.size.y / 2)| < 1 / 10)

/-- One candidate supporter check inside `hasSupport`'s loop body:
vertical adjacency plus footprint overlap on both horizontal axes. -/
def restsOn (block other : VBlock) : Bool :=
  verticallyAligned block other && footprintsOverlap block other

/-- The loop of `hasSupport` over `allBlocks`, carrying the running index
`j` and skipping `currentIndex` (`-1` means "skip nothing", as in
`fixFloatingBlocks`'s call site). -/
def supportScan (block : VBlock) : List VBlock → Int → Int → Bool
  | [], _, _ => false
  | other :: rest, j, currentIndex =>
    (if j = currentIndex then false else restsOn block other) ||
      supportScan block rest (j + 1) currentIndex

/-- `StructureValidityAgent.hasSupport`: on the ground, or supported by
another block (top face within the 0.1 tolerance of this block's bottom
face, with overlapping horizontal footprint), skipping `currentIndex`. -/
def hasSupport (block : VBlock) (allBlocks : List VBlock) (currentIndex : Int) : Bool :=
  onGround block || supportScan block allBlocks 0 currentIndex

/-- A validation issue.  The source pushes message strings; only the issue's
identity (which block index is floating, or the no-blocks complaint) is
state, the rendered text being presentation. -/
inductive Issue where
  | noBlocks : Issue
  | floating (index : Int) : Issue
deriving DecidableEq

/-- The validation loop of `validateStructure`: one issue per index whose
block fails `hasSupport`, indices counted from `i`. -/
def issuesScan (allBlocks : List VBlock) : List VBlock → Int → List Issue
  | [], _ => []
  | block :: rest, i =>
    (if hasSupport block allBlocks i then [] else [Issue.floating i]) ++
      issuesScan allBlocks rest (i + 1)

/-- Result record of `validateStructure`. -/
structure ValidationResult where
  valid : Bool
  issues : List Issue
deriving DecidableEq

/-- `StructureValidityAgent.validateStructure`: an empty structure yields
`{ valid: false, issues: ['No blocks in structure'] }`; otherwise every
block is checked for support and `valid` is `issues.length === 0`. -/
def validateStructure (blocks : List VBlock) : ValidationResult :=
  if blocks.length = 0 then { valid := false, issues := [Issue.noBlocks] }
  else
    let issues := issuesScan blocks blocks 0
    { valid := issues.isEmpty, issues := issues }

/-- `StructureValidityAgent.findSupportSurface`: highest top surface among
placed blocks whose footprint overlaps, defaulting to ground level 0. -/
def findSupportSurface (block : VBlock) (placedBlocks : List VBlock) : ℚ :=
  placedBlocks.foldl
    (fun highestSupport other =>
      if footprintsOverlap block other then
        max highestSupport (other.pos.y + other.size.y / 2)
      else highestSupport)
    0

/-- Replace a block's `pos[1]`. -/
def VBlock.setY (b : VBlock) (y : ℚ) : VBlock :=
  { b with pos := { b.pos with y := y } }

/-- Stable insertion of an `(index, y)` pair into a `y`-sorted list: the new
pair goes before the first strictly-or-equally larger `y` only when its `y`
is `≤`, so pairs with equal `y` keep their original relative order. -/
def insertByY (p : Nat × ℚ) : List (Nat × ℚ) → List (Nat × ℚ)
  | [] => [p]
  | q :: rest => if p.2 ≤ q.2 then p :: q :: rest else q :: insertByY p rest

/-- Stable ascending sort by `y`, modelling
`blocks.map((block, index) => ({index, y})).sort((a, b) => a.y - b.y)`
(ECMAScript sorts are stable). -/
def sortByY : List (Nat × ℚ) → List (Nat × ℚ)
  | [] => []
  | p :: rest => insertByY p (sortByY rest)

/-- Pair each block index with its current `pos[1]`, indices from `i`. -/
def indexBlocks : List VBlock → Nat → List (Nat × ℚ)
  | [], _ => []
  | b :: rest, i => (i, b.pos.y) :: indexBlocks rest (i + 1)

/-- The height-ordered processing order of `fixFloatingBlocks`:
block indices sorted by ascending current `pos[1]`, stably. -/
def sortedIndices (blocks : List VBlock) : List Nat :=
  (sortByY (indexBlocks blocks 0)).map Prod.fst

/-- One iteration body of `fixFloatingBlocks`: a block lacking support
against the already-placed blocks is moved onto its support surface. -/
def fixOne (fixedBlocks : List VBlock) (block : VBlock) : VBlock :=
  if hasSupport block fixedBlocks (-1) then block
  else block.setY (findSupportSurface block fixedBlocks + block.size.y / 2)

/-- The sequential placement loop of `fixFloatingBlocks`. -/
def fixLoop (blocks : List VBlock) : List Nat → List VBlock → List VBlock
  | [], fixedBlocks => fixedBlocks
  | index :: rest, fixedBlocks =>
    fixLoop blocks rest (fixedBlocks ++ [fixOne fixedBlocks (blocks.getD index default)])

/-- `StructureValidityAgent.fixFloatingBlocks`: process blocks in ascending
order of current `pos[1]`, moving each unsupported block down (or up) onto
the highest overlapping support surface among already-placed blocks. -/
def fixFloatingBlocks (blocks : List VBlock) : List VBlock :=
  fixLoop blocks (sortedIndices blocks) []

/-- `hasSupport` of the block stored at index `i`, checked against the whole
list while skipping index `i`, exactly as `validateStructure`'s loop does. -/
def hasSupportAt (blocks : List VBlock) (i : Nat) : Bool :=
  hasSupport (blocks.getD i default) blocks (i : Int)

/-- Reachability from the ground plane through the rests-on relation, the
support-graph invariant of the specification: a body is ground-reachable if
it is on the ground, or rests on some other ground-reachable body. -/
inductive GroundReachable (blocks : List VBlock) : Nat → Prop where
  | ground (i : Nat) (hi : i < blocks.length)
      (hg : onGround (blocks.getD i default) = true) : GroundReachable blocks i
  | step (i j : Nat) (hi : i < blocks.length) (hj : j < blocks.length) (hij : i ≠ j)
      (hr : restsOn (blocks.getD i default) (blocks.getD j default) = true)
      (hreach : GroundReachable blocks j) : GroundReachable blocks i

/-! ### Material system (`MaterialSystem`, ForceVector.ts) -/

/-- `MaterialType`. -/
inductive MaterialType where
  | steel
  | concrete
  | wood
  | aluminum
deriving DecidableEq

/-- `BoundaryCondition`. -/
inductive BoundaryCondition where
  | fixed
  | pinned
  | free
deriving DecidableEq

/-- `ForceType`. -/
inductive ForceType where
  | compression
  | tension
  | shear
  | bending
deriving DecidableEq

/-- `MaterialProperties`. -/
structure MaterialProperties (α : Type) where
  type : MaterialType
  density : α
  maxCompression : α
  maxTension : α
  maxShear : α
  youngsModulus : α
deriving DecidableEq

/-- `MaterialLibrary.getMaterial`: the fixed four-material catalog. -/
def MaterialLibrary.getMaterial {α : Type} [LinearOrderedField α] :
    MaterialType → MaterialProperties α
  | .steel =>
    { type := .steel, density := 7850, maxCompression := 400000000,
      maxTension := 400000000, maxShear := 250000000, youngsModulus := 200000000000 }
  | .concrete =>
    { type := .concrete, density := 2400, maxCompression := 30000000,
      maxTension := 3000000, maxShear := 5000000, youngsModulus := 30000000000 }
  | .wood =>
    { type := .wood, density := 600, maxCompression := 30000000,
      maxTension := 60000000, maxShear := 10000000, youngsModulus := 11000000000 }
  | .aluminum =>
    { type := .aluminum, density := 2700, maxCompression := 300000000,
      maxTension := 300000000, maxShear := 200000000, youngsModulus := 69000000000 }

/-- The state of one `SimulationBlock`: the mesh's mutable position and
scale, the `BlockProperties` record, and the privately stored original
position and scale captured at registration time. -/
structure SimBlock (α : Type) where
  pos : Vec3 α
  scale : Vec3 α
  material : MaterialProperties α
  boundaryCondition : BoundaryCondition
  mass : α
  volume : α
  stress : α
  failed : Bool
  originalPosition : Vec3 α
  originalScale : Vec3 α
  deformationFactor : α

/-- The `SimulationBlock` constructor: volume from the bounding-box size,
mass = density × volume, zero stress, not failed, original position and
scale captured from the mesh. -/
def SimBlock.create {α : Type} [LinearOrderedField α] (pos scale size : Vec3 α)
    (materialType : MaterialType) (boundary : BoundaryCondition) : SimBlock α :=
  let material := MaterialLibrary.getMaterial materialType
  let volume := size.x * size.y * size.z
  { pos := pos, scale := scale, material := material, boundaryCondition := boundary,
    mass := material.density * volume, volume := volume, stress := 0, failed := false,
    originalPosition := pos, originalScale := scale, deformationFactor := 1 }

/-- `SimulationBlock.calculateStress`: select the material limit by force
type (bending uses `min(maxTension, maxCompression)`), set
`stress = |appliedForce| / limit`, and set `failed` when `stress >= 1.0`
(leaving it untouched otherwise). -/
def SimBlock.calculateStress {α : Type} [LinearOrderedField α] (b : SimBlock α)
    (appliedForce : α) (forceType : ForceType) : SimBlock α :=
  let limit : α :=
    match forceType with
    | .compression => b.material.maxCompression
    | .tension => b.material.maxTension
    | .shear => b.material.maxShear
    | .bending => min b.material.maxTension b.material.maxCompression
  let stress := |appliedForce| / limit
  { b with stress := stress, failed := if 1 ≤ stress then true else b.failed }

/-- `SimulationBlock.applyDeformation`: fixed blocks return unchanged;
otherwise the mesh scale becomes the original scale times
`1 + stress * 0.1 * scaleFactor`. -/
def SimBlock.applyDeformation {α : Type} [LinearOrderedField α] (b : SimBlock α)
    (scaleFactor : α) : SimBlock α :=
  if b.boundaryCondition = .fixed then b
  else
    let deformationFactor := 1 + b.stress * (1 / 10) * scaleFactor
    { b with deformationFactor := deformationFactor,
             scale := b.originalScale.smul deformationFactor }

/-- `SimulationBlock.resetDeformation`: restore the original scale and
position exactly. -/
def SimBlock.resetDeformation {α : Type} [LinearOrderedField α] (b : SimBlock α) :
    SimBlock α :=
  { b with scale := b.originalScale, pos := b.originalPosition, deformationFactor := 1 }

/-- `SimulationBlock.reset`: reset deformation and zero the stress state. -/
def SimBlock.reset {α : Type} [LinearOrderedField α] (b : SimBlock α) : SimBlock α :=
  { b.resetDeformation with stress := 0, failed := false }

/-! ### Stress engine (`FEASimulationEngine`, FloatingUI.ts) -/

/-- An RGB colour with components in `[0, 1]`, after `THREE.Color`. -/
structure Color (α : Type) where
  r : α
  g : α
  b : α
deriving DecidableEq

/-- `THREE.Color.lerpColors`: componentwise linear interpolation. -/
def lerpColors {α : Type} [LinearOrderedField α] (c1 c2 : Color α) (t : α) : Color α :=
  ⟨c1.r + (c2.r - c1.r) * t, c1.g + (c2.g - c1.g) * t, c1.b + (c2.b - c1.b) * t⟩

/-- `0xff0000`. -/
def colorRed {α : Type} [LinearOrderedField α] : Color α := ⟨1, 0, 0⟩

/-- `0x00ff00`. -/
def colorGreen {α : Type} [LinearOrderedField α] : Color α := ⟨0, 1, 0⟩

/-- `0x88ff00`. -/
def colorYellowGreen {α : Type} [LinearOrderedField α] : Color α := ⟨136 / 255, 1, 0⟩

/-- `0xffff00`. -/
def colorYellow {α : Type} [LinearOrderedField α] : Color α := ⟨1, 1, 0⟩

/-- `0xff8800`. -/
def colorOrange {α : Type} [LinearOrderedField α] : Color α := ⟨1, 136 / 255, 0⟩

/-- `FEASimulationEngine.getStressColor`: red when failed or at/above the
failure threshold, otherwise the three-band green→yellow-green→yellow→orange
interpolation. -/
def getStressColor {α : Type} [LinearOrderedField α] (stress : α) (isFailed : Bool) :
    Color α :=
  if isFailed = true ∨ 1 ≤ stress then colorRed
  else if stress < 3 / 10 then lerpColors colorGreen colorYellowGreen (stress / (3 / 10))
  else if stress < 6 / 10 then
    lerpColors colorYellowGreen colorYellow ((stress - 3 / 10) / (3 / 10))
  else lerpColors colorYellow colorOrange ((stress - 6 / 10) / (4 / 10))

/-- The engine's gravitational acceleration field, `9.81`. -/
def engineGravity {α : Type} [LinearOrderedField α] : α := 981 / 100

/-- The engine's deformation exaggeration factor field, `5.0`. -/
def engineDeformationScale {α : Type} [LinearOrderedField α] : α := 5

/-- `THREE.Vector3.length`: Euclidean length. -/
noncomputable def Vec3.length (v : Vec3 ℝ) : ℝ := Real.sqrt v.lengthSq

/-- `THREE.Vector3.normalize`: `divideScalar(length || 1)`, so the zero
vector is left unchanged. -/
noncomputable def Vec3.normalize (v : Vec3 ℝ) : Vec3 ℝ :=
  v.smul (1 / (if v.length = 0 then 1 else v.length))

/-- `THREE.Vector3.distanceTo`: Euclidean distance. -/
noncomputable def Vec3.distanceTo (a b : Vec3 ℝ) : ℝ := (a.sub b).length

/-- The active `ForceVector` as consumed by the engine: origin, direction,
magnitude (the arrow and label objects are rendering state). -/
structure ForceVec where
  position : Vec3 ℝ
  direction : Vec3 ℝ
  magnitude : ℝ

/-- One block's update inside `FEASimulationEngine.runSimulation`: alignment
and inverse-square distance factor from the force origin, effective force
scaled by `1e8`, classification by the `±0.7` alignment thresholds,
`calculateStress`, gravitational self-weight for non-fixed blocks, then
`applyDeformation` with the engine's deformation scale. -/
noncomputable def blockRunStep (forceVector : ForceVec) (block : SimBlock ℝ) :
    SimBlock ℝ :=
  let meshPosition := block.pos
  let distanceToForce := meshPosition.distanceTo forceVector.position
  let directionToMesh := (meshPosition.sub forceVector.position).normalize
  let alignment := directionToMesh.dot forceVector.direction
  let distanceFactor := 1 / max 1 (distanceToForce ^ 2)
  let effectiveForce := forceVector.magnitude * |alignment| * distanceFactor * 100000000
  let b1 :=
    if 7 / 10 < alignment then block.calculateStress effectiveForce .compression
    else if alignment < -(7 / 10) then block.calculateStress effectiveForce .tension
    else block.calculateStress effectiveForce .shear
  let b2 :=
    if b1.boundaryCondition ≠ .fixed then
      { b1 with stress := b1.stress + b1.mass * engineGravity / b1.material.maxCompression }
    else b1
  b2.applyDeformation engineDeformationScale

/-- The summary returned by `runSimulation`. -/
structure SimResult where
  totalBlocks : Nat
  failedBlocks : Nat
  maxStress : ℝ
  results : List (ℝ × Bool)
  blocksAfter : List (SimBlock ℝ)

/-- `FEASimulationEngine.runSimulation`: update every block independently
and assemble the per-block results and the summary counters. -/
noncomputable def runSimulation (blocks : List (SimBlock ℝ)) (forceVector : ForceVec) :
    SimResult :=
  let after := blocks.map (blockRunStep forceVector)
  { totalBlocks := blocks.length,
    failedBlocks := (after.filter (·.failed)).length,
    maxStress := after.foldl (fun m b => max m b.stress) 0,
    results := after.map (fun b => (b.stress, b.failed)),
    blocksAfter := after }

/-- `FEASimulationEngine.resetSimulation`: reset deformation and zero the
stress state of every block, without deregistering any. -/
noncomputable def resetSimulation (blocks : List (SimBlock ℝ)) : List (SimBlock ℝ) :=
  blocks.map (fun b => { b.resetDeformation with stress := 0, failed := false })

/-- `FEASimulationEngine.clearVectors`: forget the active force vector and
reset every block to its original no-stress state. -/
noncomputable def clearVectors (blocks : List (SimBlock ℝ)) : List (SimBlock ℝ) :=
  blocks.map SimBlock.reset

/-! ### Definitions transcribed from the specification's wording, used to
state refinement claims against the embedded source. -/

/-- Modelled from the spec (§4.4/C5 wording): the stress ratio before
self-weight is `force.magnitude × |alignment| × (1 / max(1, distance²)) ×
1e8` divided by the material limit selected by the alignment thresholds. -/
noncomputable def specPreStress (forceVector : ForceVec) (block : SimBlock ℝ) : ℝ :=
  let alignment := ((block.pos.sub forceVector.position).normalize).dot forceVector.direction
  let distance := block.pos.distanceTo forceVector.position
  let limit :=
    if 7 / 10 < alignment then block.material.maxCompression
    else if alignment < -(7 / 10) then block.material.maxTension
    else block.material.maxShear
  forceVector.magnitude * |alignment| * (1 / max 1 (distance ^ 2)) * 100000000 / limit

/-- Modelled from the spec (§4.3 colour mapping wording): `failed` or
`ratio ≥ 1.0` gives pure red; then the green→yellow-green, yellow-green→
yellow and yellow→orange bands. -/
def specStressColor {α : Type} [LinearOrderedField α] (ratio : α) (failed : Bool) :
    Color α :=
  if failed = true ∨ 1 ≤ ratio then colorRed
  else if ratio < 3 / 10 then lerpColors colorGreen colorYellowGreen (ratio / (3 / 10))
  else if ratio < 6 / 10 then
    lerpColors colorYellowGreen colorYellow ((ratio - 3 / 10) / (3 / 10))
  else lerpColors colorYellow colorOrange ((ratio - 6 / 10) / (4 / 10))

/-- Whole-list support invariant used in the validator proofs: each stored
block passes the validation support check (skipping its own index). -/
def allSupported (l : List VBlock) : Prop :=
  ∀ i, i < l.length → hasSupport (l.getD i default) l (i : Int) = true

instance {α : Type} [LinearOrderedField α] : Inhabited (SimBlock α) :=
  ⟨SimBlock.create ⟨0, 0, 0⟩ ⟨0, 0, 0⟩ ⟨0, 0, 0⟩ .steel .free⟩

/-! ### Concrete scenario inputs used by counterexamples and witnesses -/

/-- A thin box (height 0.05) floating at height 5. -/
def thinBlock : VBlock := ⟨"cube", ⟨0, 5, 0⟩, ⟨1, 1 / 20, 1⟩⟩

/-- Two coincident thin boxes: each one's top face is within the 0.1
tolerance of the other's bottom face, so they mutually support each other
while neither touches the ground. -/
def thinPair : List VBlock := [thinBlock, thinBlock]

/-- A unit cube resting on the ground. -/
def groundedUnit : VBlock := ⟨"cube", ⟨0, 1 / 2, 0⟩, ⟨1, 1, 1⟩⟩

/-- A grounded 1×2×1 tower whose top face is at height 2. -/
def towerBlock : VBlock := ⟨"cube", ⟨0, 1, 0⟩, ⟨1, 2, 1⟩⟩

/-- A thin shelf at height 1.9 overlapping the tower: it is 0.125 below the
tower top, i.e. just outside the adjacency tolerance, so `fix` lifts it onto
the tower (to y = 2.025). -/
def shelfBlock : VBlock := ⟨"cube", ⟨3 / 4, 19 / 10, 0⟩, ⟨1, 1 / 20, 1⟩⟩

/-- A thin ledge at height 2 overlapping only the shelf: after the shelf is
lifted, the ledge's bottom face (1.975) is within tolerance of the lifted
shelf's top face (2.05), so the first `fix` pass keeps it — yet it then sits
0.025 below its own supporter, which breaks the height ordering of the
second pass. -/
def ledgeBlock : VBlock := ⟨"cube", ⟨3 / 2, 2, 0⟩, ⟨1, 1 / 20, 1⟩⟩

/-- Tower, shelf and ledge: input on which `fix` is not idempotent. -/
def towerShelfLedge : List VBlock := [towerBlock, shelfBlock, ledgeBlock]

/-- A small cube floating at height 5. -/
def highCube : VBlock := ⟨"cube", ⟨0, 5, 0⟩, ⟨2, 1, 2⟩⟩

/-- A wide grounded slab. -/
def wideSlab : VBlock := ⟨"cube", ⟨0, 1 / 2, 0⟩, ⟨3, 1, 3⟩⟩

/-- A floating cube listed before the grounded slab: `fix` returns the slab
first. -/
def highThenLow : List VBlock := [highCube, wideSlab]

/-- A 10×10×3 concrete free block whose mass (720 000 kg) makes the
self-weight term 0.23544: combined with a 5/6 base stress ratio the final
ratio crosses 1.0 only because of self-weight. -/
noncomputable def heavyConcrete : SimBlock ℝ :=
  SimBlock.create ⟨0, 1, 0⟩ ⟨1, 1, 1⟩ ⟨10, 10, 3⟩ .concrete .free

/-- A unit-magnitude-scale force 1 m below `heavyConcrete`'s centroid,
pointing straight at it (alignment 1, compression). -/
noncomputable def pushForce : ForceVec := ⟨⟨0, 0, 0⟩, ⟨0, 1, 0⟩, 1 / 4⟩

/-- A steel free unit block at height 1. -/
noncomputable def steelUnit : SimBlock ℝ :=
  SimBlock.create ⟨0, 1, 0⟩ ⟨1, 1, 1⟩ ⟨1, 1, 1⟩ .steel .free

/-- A force of magnitude 1 aimed at `steelUnit` from below. -/
noncomputable def unitForce : ForceVec := ⟨⟨0, 0, 0⟩, ⟨0, 1, 0⟩, 1⟩

/-- The same force with magnitude 2. -/
noncomputable def doubleForce : ForceVec := ⟨⟨0, 0, 0⟩, ⟨0, 1, 0⟩, 2⟩

/-- A steel block with a fixed boundary condition (rational scalars, for
witness evaluation). -/
def fixedSteelQ : SimBlock ℚ :=
  SimBlock.create ⟨0, 0, 0⟩ ⟨1, 1, 1⟩ ⟨1, 1, 1⟩ .steel .fixed

/-- A block already marked failed with stress 2. -/
noncomputable def failedSteel : SimBlock ℝ :=
  { steelUnit with stress := 2, failed := true }

/-! ## Theorems -/

/-- C2 counterexample: on the empty body list, `validate` does not report
"vacuously valid": it returns `valid == false` (with a non-empty issue
list), contradicting the claim. -/
theorem validate_empty_not_valid : (validateStructure []).valid = false := rfl

/-- C2 (amended): `validate` and `fix` are total functions returning data
(never throwing); on a list of zero bodies `validate` returns
`valid == false` with the single "no blocks in structure" issue, and `fix`
returns the empty list. -/
theorem validate_fix_empty_behavior :
    validateStructure [] = ⟨false, [Issue.noBlocks]⟩ ∧ fixFloatingBlocks [] = [] :=
  ⟨rfl, rfl⟩

/-- C7: `applyDeformation` never changes the mesh scale of a body whose
boundary condition is `Fixed`, regardless of its stress ratio and of the
`scaleFactor` argument; a non-Fixed body's scale becomes the original scale
times the visual multiplier `1 + stress × 0.1 × scaleFactor`. -/
theorem applyDeformation_fixed_exclusion {α : Type} [LinearOrderedField α]
    (b : SimBlock α) (scaleFactor : α) :
    (b.boundaryCondition = .fixed → (b.applyDeformation scaleFactor).scale = b.scale) ∧
    (b.boundaryCondition ≠ .fixed →
      (b.applyDeformation scaleFactor).scale =
        b.originalScale.smul (1 + b.stress * (1 / 10) * scaleFactor)) := by
  constructor <;> intro h <;> simp [SimBlock.applyDeformation, h]

/-- C7 witness: a concrete fixed block keeps its scale under a concrete
deformation factor. -/
theorem applyDeformation_fixed_exclusion_witness :
    (fixedSteelQ.applyDeformation 5).scale = fixedSteelQ.scale :=
  (applyDeformation_fixed_exclusion fixedSteelQ 5).1 rfl

/-- C8: the stress-to-colour mapping is total (defined for every ratio and
failed flag), agrees with the specification's piecewise description on
`[0, ∞)`, and maps `failed == true` (or any ratio `≥ 1.0`) to the same pure
red regardless of the ratio. -/
theorem getStressColor_matches_spec {α : Type} [LinearOrderedField α]
    (ratio : α) (failed : Bool) (h : 0 ≤ ratio) :
    getStressColor ratio failed = specStressColor ratio failed ∧
    (failed = true → getStressColor ratio failed = colorRed) ∧
    (1 ≤ ratio → getStressColor ratio failed = colorRed) := by
  refine ⟨rfl, ?_, ?_⟩ <;> intro h2 <;> simp [getStressColor, h2]

/-- C8 witness: the mapping at a concrete mid-band ratio and at a concrete
failed flag. -/
theorem getStressColor_matches_spec_witness :
    (0 ≤ (9 / 20 : ℚ)) ∧ getStressColor (9 / 20 : ℚ) true = colorRed :=
  ⟨by norm_num, (getStressColor_matches_spec (9 / 20 : ℚ) true (by norm_num)).2.1 rfl⟩

/-! ### Helper lemmas on the per-block simulation step -/

theorem applyDeformation_stress {α : Type} [LinearOrderedField α] (b : SimBlock α)
    (s : α) : (b.applyDeformation s).stress = b.stress := by
  unfold SimBlock.applyDeformation
  split <;> rfl

theorem applyDeformation_failed {α : Type} [LinearOrderedField α] (b : SimBlock α)
    (s : α) : (b.applyDeformation s).failed = b.failed := by
  unfold SimBlock.applyDeformation
  split <;> rfl

theorem calculateStress_stress {α : Type} [LinearOrderedField α] (b : SimBlock α)
    (appliedForce : α) (forceType : ForceType) :
    (b.calculateStress appliedForce forceType).stress =
      |appliedForce| /
        (match forceType with
         | .compression => b.material.maxCompression
         | .tension => b.material.maxTension
         | .shear => b.material.maxShear
         | .bending => min b.material.maxTension b.material.maxCompression) := rfl

theorem calculateStress_failed {α : Type} [LinearOrderedField α] (b : SimBlock α)
    (appliedForce : α) (forceType : ForceType) :
    (b.calculateStress appliedForce forceType).failed =
      (if 1 ≤ (b.calculateStress appliedForce forceType).stress then true
       else b.failed) := rfl

theorem calculateStress_boundary {α : Type} [LinearOrderedField α] (b : SimBlock α)
    (appliedForce : α) (forceType : ForceType) :
    (b.calculateStress appliedForce forceType).boundaryCondition = b.boundaryCondition :=
  rfl

theorem calculateStress_mass {α : Type} [LinearOrderedField α] (b : SimBlock α)
    (appliedForce : α) (forceType : ForceType) :
    (b.calculateStress appliedForce forceType).mass = b.mass := rfl

theorem calculateStress_material {α : Type} [LinearOrderedField α] (b : SimBlock α)
    (appliedForce : α) (forceType : ForceType) :
    (b.calculateStress appliedForce forceType).material = b.material := rfl

theorem getD_map_of_lt {β γ : Type} [Inhabited β] [Inhabited γ] (g : β → γ)
    (l : List β) (i : Nat) (hi : i < l.length) :
    (l.map g).getD i default = g (l.getD i default) := by
  induction l generalizing i with
  | nil => simp at hi
  | cons a t ih =>
    cases i with
    | zero => rfl
    | succ n => simpa using ih n (by simpa using hi)

theorem blocksAfter_runSimulation (blocks : List (SimBlock ℝ)) (f : ForceVec) :
    (runSimulation blocks f).blocksAfter = blocks.map (blockRunStep f) := rfl

theorem blockRunStep_stress_eq (f : ForceVec) (b : SimBlock ℝ) (hm : 0 ≤ f.magnitude) :
    (blockRunStep f b).stress = specPreStress f b +
      (if b.boundaryCondition = .fixed then 0
       else b.mass * (981 / 100) / b.material.maxCompression) := by
  simp only [blockRunStep, specPreStress, applyDeformation_stress, engineGravity, ne_eq,
    apply_ite SimBlock.stress, apply_ite SimBlock.boundaryCondition,
    apply_ite SimBlock.mass, apply_ite SimBlock.material,
    calculateStress_stress, calculateStress_boundary, calculateStress_mass,
    calculateStress_material, ite_self]
  set a := ((b.pos.sub f.position).normalize).dot f.direction with ha
  set dist := b.pos.distanceTo f.position with hd
  set e := f.magnitude * |a| * (1 / max 1 (dist ^ 2)) * 100000000 with he
  have habs : |e| = e := abs_of_nonneg (by rw [he]; positivity)
  rw [habs]
  split_ifs <;> first | rfl | ring

theorem getMaterial_limits_pos {α : Type} [LinearOrderedField α] (mt : MaterialType) :
    0 < (MaterialLibrary.getMaterial (α := α) mt).maxCompression ∧
    0 < (MaterialLibrary.getMaterial (α := α) mt).maxTension ∧
    0 < (MaterialLibrary.getMaterial (α := α) mt).maxShear := by
  cases mt <;> refine ⟨?_, ?_, ?_⟩ <;> norm_num [MaterialLibrary.getMaterial]

/-- C10: the failed flag is monotone across simulation runs — a block whose
flag is already `true` keeps it `true` after any further `runSimulation`
(the per-body computation only ever assigns `failed := true`) — and both
`resetSimulation` and `clearVectors` restore it to `false`. -/
theorem failed_flag_monotone_until_reset (blocks : List (SimBlock ℝ)) (f : ForceVec)
    (i : Nat) (hi : i < blocks.length)
    (h : (blocks.getD i default).failed = true) :
    (((runSimulation blocks f).blocksAfter).getD i default).failed = true ∧
    ((resetSimulation blocks).getD i default).failed = false ∧
    ((clearVectors blocks).getD i default).failed = false := by
  refine ⟨?_, ?_, ?_⟩
  · rw [blocksAfter_runSimulation, getD_map_of_lt _ _ _ hi]
    unfold blockRunStep
    simp only [applyDeformation_failed]
    split_ifs <;> simp_all [calculateStress_failed]
  · rw [resetSimulation, getD_map_of_lt _ _ _ hi]
  · rw [clearVectors, getD_map_of_lt _ _ _ hi]
    rfl

/-- C10 witness: a concretely failed block stays failed through a further
run and is cleared by the reset operations. -/
theorem failed_flag_monotone_until_reset_witness :
    (((runSimulation [failedSteel] unitForce).blocksAfter).getD 0 default).failed = true ∧
    ((resetSimulation [failedSteel]).getD 0 default).failed = false ∧
    ((clearVectors [failedSteel]).getD 0 default).failed = false :=
  failed_flag_monotone_until_reset [failedSteel] unitForce 0 (by norm_num) rfl

/-- C5: for every body processed by `runSimulation` (with the data model's
non-negative force magnitude), the stress ratio before self-weight equals
`magnitude × |alignment| × (1 / max(1, distance²)) × 1e8` divided by the
material limit selected by the ±0.7 alignment thresholds, and non-Fixed
bodies additionally get `mass × 9.81 / maxCompression` added. -/
theorem runSimulation_stress_formula (blocks : List (SimBlock ℝ)) (f : ForceVec)
    (hm : 0 ≤ f.magnitude) (i : Nat) (hi : i < blocks.length) :
    (((runSimulation blocks f).blocksAfter).getD i default).stress =
      specPreStress f (blocks.getD i default) +
        (if (blocks.getD i default).boundaryCondition = .fixed then 0
         else (blocks.getD i default).mass * (981 / 100) /
           (blocks.getD i default).material.maxCompression) := by
  rw [blocksAfter_runSimulation, getD_map_of_lt _ _ _ hi]
  exact blockRunStep_stress_eq f _ hm

/-- C5 witness: the formula instantiated on a concrete steel block under a
concrete unit force. -/
theorem runSimulation_stress_formula_witness :
    (((runSimulation [steelUnit] unitForce).blocksAfter).getD 0 default).stress =
      specPreStress unitForce ([steelUnit].getD 0 default) +
        (if ([steelUnit].getD 0 default).boundaryCondition = .fixed then 0
         else ([steelUnit].getD 0 default).mass * (981 / 100) /
           ([steelUnit].getD 0 default).material.maxCompression) :=
  runSimulation_stress_formula [steelUnit] unitForce (by norm_num [unitForce]) 0
    (by norm_num)

theorem specPreStress_mono (b : SimBlock ℝ) (p dvec : Vec3 ℝ) (m1 m2 : ℝ)
    (hmt : ∃ mt, b.material = MaterialLibrary.getMaterial mt) (h12 : m1 ≤ m2) :
    specPreStress ⟨p, dvec, m1⟩ b ≤ specPreStress ⟨p, dvec, m2⟩ b := by
  obtain ⟨mt, hmat⟩ := hmt
  obtain ⟨hc, ht, hs⟩ := getMaterial_limits_pos (α := ℝ) mt
  simp only [specPreStress]
  set a := ((b.pos.sub (⟨p, dvec, m1⟩ : ForceVec).position).normalize).dot
    (⟨p, dvec, m1⟩ : ForceVec).direction with ha
  set dist := b.pos.distanceTo (⟨p, dvec, m1⟩ : ForceVec).position with hd
  have hfac : 0 ≤ |a| * (1 / max 1 (dist ^ 2)) * 100000000 := by positivity
  split_ifs with h1 h2 <;> rw [hmat] <;> gcongr

/-- C6: increasing the force magnitude while holding the bodies, the force
origin and the force direction fixed never decreases any body's stress
ratio computed by `runSimulation`. -/
theorem runSimulation_magnitude_monotone (blocks : List (SimBlock ℝ))
    (p dvec : Vec3 ℝ) (m1 m2 : ℝ)
    (hmat : ∀ b ∈ blocks, ∃ mt, b.material = MaterialLibrary.getMaterial mt)
    (h0 : 0 ≤ m1) (h12 : m1 ≤ m2) (i : Nat) (hi : i < blocks.length) :
    (((runSimulation blocks ⟨p, dvec, m1⟩).blocksAfter).getD i default).stress ≤
      (((runSimulation blocks ⟨p, dvec, m2⟩).blocksAfter).getD i default).stress := by
  rw [blocksAfter_runSimulation, blocksAfter_runSimulation,
    getD_map_of_lt _ _ _ hi, getD_map_of_lt _ _ _ hi]
  have hb : blocks.getD i default ∈ blocks := by
    have := List.getD_eq_getElem?_getD blocks i (default : SimBlock ℝ)
    rw [this, List.getElem?_eq_getElem hi]
    exact List.getElem_mem _
  rw [blockRunStep_stress_eq _ _ h0, blockRunStep_stress_eq _ _ (le_trans h0 h12)]
  exact add_le_add_right (specPreStress_mono _ p dvec m1 m2 (hmat _ hb) h12) _

/-- C6 witness: monotonicity instantiated between the concrete magnitudes 1
and 2 on a concrete steel block. -/
theorem runSimulation_magnitude_monotone_witness :
    (((runSimulation [steelUnit] ⟨⟨0, 0, 0⟩, ⟨0, 1, 0⟩, 1⟩).blocksAfter).getD 0
        default).stress ≤
      (((runSimulation [steelUnit] ⟨⟨0, 0, 0⟩, ⟨0, 1, 0⟩, 2⟩).blocksAfter).getD 0
        default).stress :=
  runSimulation_magnitude_monotone [steelUnit] ⟨0, 0, 0⟩ ⟨0, 1, 0⟩ 1 2
    (by intro b hb; rw [List.mem_singleton] at hb; exact ⟨.steel, by rw [hb]; rfl⟩)
    (by norm_num) (by norm_num) 0 (by norm_num)

theorem specPreStress_heavyConcrete : specPreStress pushForce heavyConcrete = 5 / 6 := by
  simp only [specPreStress, pushForce, heavyConcrete, SimBlock.create,
    MaterialLibrary.getMaterial, Vec3.sub, Vec3.normalize, Vec3.length, Vec3.lengthSq,
    Vec3.distanceTo, Vec3.dot, Vec3.smul]
  norm_num [Real.sqrt_one]

/-- C1 (code bug): running the simulation on a free 10×10×3 concrete block
with a magnitude-0.25 force aimed straight at it from distance 1 leaves the
final stress ratio at 5/6 + 0.23544 ≥ 1 (the self-weight term pushes it
over the failure threshold) while `failed` remains `false`, because the
failure flag is computed inside `calculateStress` before the self-weight
term is added. -/
theorem selfweight_crossing_not_flagged :
    1 ≤ (((runSimulation [heavyConcrete] pushForce).blocksAfter).getD 0 default).stress ∧
    (((runSimulation [heavyConcrete] pushForce).blocksAfter).getD 0 default).failed =
      false := by
  have hstep : ((runSimulation [heavyConcrete] pushForce).blocksAfter).getD 0 default
      = blockRunStep pushForce heavyConcrete := rfl
  rw [hstep]
  constructor
  · rw [blockRunStep_stress_eq pushForce heavyConcrete (by norm_num [pushForce]),
      specPreStress_heavyConcrete]
    norm_num [heavyConcrete, SimBlock.create, MaterialLibrary.getMaterial,
      show BoundaryCondition.free ≠ BoundaryCondition.fixed from by decide]
  · simp only [blockRunStep, heavyConcrete, pushForce, SimBlock.create,
      MaterialLibrary.getMaterial, applyDeformation_failed, engineGravity, ne_eq,
      apply_ite SimBlock.failed, apply_ite SimBlock.boundaryCondition,
      calculateStress_failed, calculateStress_stress, calculateStress_boundary,
      Vec3.sub, Vec3.normalize, Vec3.length, Vec3.lengthSq, Vec3.distanceTo, Vec3.dot,
      Vec3.smul, ite_self]
    norm_num [Real.sqrt_one]

/-! ### Helper lemmas on the support-graph validator -/

theorem supportScan_iff (block : VBlock) (l : List VBlock) (j ci : Int) :
    supportScan block l j ci = true ↔
      ∃ k : Nat, k < l.length ∧ j + (k : Int) ≠ ci ∧
        restsOn block (l.getD k default) = true := by
  induction l generalizing j with
  | nil => simp [supportScan]
  | cons o rest ih =>
    simp only [supportScan, Bool.or_eq_true, ih]
    constructor
    · rintro (h | ⟨k, hk, hne, hr⟩)
      · by_cases hj : j = ci
        · rw [if_pos hj] at h
          exact absurd h (by simp)
        · rw [if_neg hj] at h
          exact ⟨0, by simp, by simpa using hj, by simpa using h⟩
      · refine ⟨k + 1, by simpa using hk, ?_, by simpa using hr⟩
        intro hcon
        apply hne
        omega
    · rintro ⟨k, hk, hne, hr⟩
      cases k with
      | zero =>
        left
        rw [if_neg (by simpa using hne)]
        simpa using hr
      | succ n =>
        right
        refine ⟨n, by simpa using hk, ?_, by simpa using hr⟩
        intro hcon
        apply hne
        omega

theorem hasSupport_iff (block : VBlock) (l : List VBlock) (ci : Int) :
    hasSupport block l ci = true ↔
      onGround block = true ∨
        ∃ k : Nat, k < l.length ∧ (k : Int) ≠ ci ∧
          restsOn block (l.getD k default) = true := by
  simp [hasSupport, supportScan_iff]

theorem issuesScan_eq_nil_iff (all : List VBlock) (l : List VBlock) (i : Int) :
    issuesScan all l i = [] ↔
      ∀ k : Nat, k < l.length →
        hasSupport (l.getD k default) all (i + (k : Int)) = true := by
  induction l generalizing i with
  | nil => simp [issuesScan]
  | cons b rest ih =>
    simp only [issuesScan, List.append_eq_nil, ih]
    constructor
    · rintro ⟨h1, h2⟩ k hk
      cases k with
      | zero =>
        cases hb : hasSupport b all i with
        | false => rw [hb] at h1; simp at h1
        | true => simpa using hb
      | succ n =>
        have := h2 n (by simpa using hk)
        rw [List.getD_cons_succ]
        convert this using 2
        push_cast
        ring
    · intro h
      constructor
      · have := h 0 (by simp)
        simp only [List.getD_cons_zero, Nat.cast_zero, add_zero] at this
        rw [if_pos (by simpa using this)]
      · intro k hk
        have := h (k + 1) (by simpa using hk)
        rw [List.getD_cons_succ] at this
        convert this using 2
        push_cast
        ring

theorem validateStructure_valid_iff (blocks : List VBlock) :
    (validateStructure blocks).valid = true ↔
      blocks ≠ [] ∧ ∀ i : Nat, i < blocks.length → hasSupportAt blocks i = true := by
  unfold validateStructure
  split_ifs with h
  · simp [List.length_eq_zero.mp h]
  · have hne : blocks ≠ [] := fun hcon => h (by simp [hcon])
    simp only [hne, ne_eq, not_false_eq_true, true_and, List.isEmpty_iff]
    rw [issuesScan_eq_nil_iff]
    constructor
    · intro hall i hi
      have := hall i hi
      simpa [hasSupportAt] using this
    · intro hall k hk
      have := hall k hk
      simpa [hasSupportAt] using this

/-- C3 counterexample: two coincident thin bodies at height 5 mutually
"support" each other within the ε tolerance, so `validate` returns
`valid == true` even though neither is reachable from the ground plane
through the rests-on relation. -/
theorem mutual_support_valid_but_floating :
    (validateStructure thinPair).valid = true ∧ ¬ GroundReachable thinPair 0 := by
  constructor
  · norm_num [validateStructure, thinPair, issuesScan, hasSupport, supportScan, restsOn,
      verticallyAligned, footprintsOverlap, checkOverlap, onGround, thinBlock,
      abs_lt, le_abs]
  · have hnone : ∀ i, ¬ GroundReachable thinPair i := by
      intro i h
      induction h with
      | ground j hj hg =>
        simp only [thinPair, List.length_cons, List.length_nil] at hj
        interval_cases j <;>
          simp [thinPair, thinBlock, onGround, abs_lt, le_abs] at hg <;> norm_num at hg
      | step i j hi hj hij hr hreach ih => exact ih
    exact hnone 0

/-- C3 (amended): a `valid == true` verdict guarantees only local support —
every body is either on the ground or vertically adjacent (within ε, with
overlapping footprint) to some other body — not reachability from the
ground plane; mutually-supporting groups at equal height can be judged
valid while floating. -/
theorem valid_implies_local_support (blocks : List VBlock)
    (h : (validateStructure blocks).valid = true) :
    ∀ i : Nat, i < blocks.length → hasSupportAt blocks i = true :=
  ((validateStructure_valid_iff blocks).mp h).2

/-- C3 witness: the amended theorem applied to a concrete grounded unit
cube. -/
theorem valid_implies_local_support_witness :
    hasSupportAt [groundedUnit] 0 = true :=
  valid_implies_local_support [groundedUnit]
    (by norm_num [validateStructure, issuesScan, hasSupport, supportScan, onGround,
      groundedUnit, abs_lt, le_abs])
    0 (by norm_num)

theorem findSupportSurface_cases (block : VBlock) (placed : List VBlock) :
    findSupportSurface block placed = 0 ∨
      ∃ k : Nat, k < placed.length ∧
        footprintsOverlap block (placed.getD k default) = true ∧
        findSupportSurface block placed =
          (placed.getD k default).pos.y + (placed.getD k default).size.y / 2 := by
  have main : ∀ (l : List VBlock) (acc : ℚ),
      l.foldl (fun highestSupport other =>
        if footprintsOverlap block other then
          max highestSupport (other.pos.y + other.size.y / 2)
        else highestSupport) acc = acc ∨
      ∃ k : Nat, k < l.length ∧ footprintsOverlap block (l.getD k default) = true ∧
        l.foldl (fun highestSupport other =>
          if footprintsOverlap block other then
            max highestSupport (other.pos.y + other.size.y / 2)
          else highestSupport) acc =
          (l.getD k default).pos.y + (l.getD k default).size.y / 2 := by
    intro l
    induction l with
    | nil => intro acc; left; rfl
    | cons o rest ih =>
      intro acc
      rw [List.foldl_cons]
      rcases ih (if footprintsOverlap block o then
          max acc (o.pos.y + o.size.y / 2) else acc) with h | ⟨k, hk, hov, heq⟩
      · rw [h]
        by_cases ho : footprintsOverlap block o = true
        · rw [if_pos ho]
          rcases max_choice acc (o.pos.y + o.size.y / 2) with hm | hm
          · left; exact hm
          · right; exact ⟨0, by simp, by simpa using ho, by simpa using hm⟩
        · rw [if_neg ho]
          left; rfl
      · right
        exact ⟨k + 1, by simpa using hk, by simpa using hov, by simpa using heq⟩
  exact main placed 0

theorem fixOne_supported (placed : List VBlock) (block : VBlock) :
    hasSupport (fixOne placed block) placed (-1) = true := by
  unfold fixOne
  split_ifs with h
  · exact h
  · rcases findSupportSurface_cases block placed with h0 | ⟨k, hk, hov, htop⟩
    · rw [hasSupport_iff]
      left
      rw [h0]
      simp [onGround, VBlock.setY]
    · rw [hasSupport_iff]
      right
      refine ⟨k, hk, by omega, ?_⟩
      have hfp : footprintsOverlap (block.setY (findSupportSurface block placed +
          block.size.y / 2)) (placed.getD k default) = true := hov
      rw [restsOn, Bool.and_eq_true]
      refine ⟨?_, hfp⟩
      rw [verticallyAligned, htop, VBlock.setY]
      simp

theorem allSupported_nil : allSupported [] := by
  intro i hi
  simp at hi

theorem allSupported_append (placed : List VBlock) (nb : VBlock)
    (hplaced : allSupported placed) (hnb : hasSupport nb placed (-1) = true) :
    allSupported (placed ++ [nb]) := by
  intro i hi
  rw [List.length_append, List.length_singleton] at hi
  rcases Nat.lt_or_ge i placed.length with hlt | hge
  · have h := hplaced i hlt
    rw [hasSupport_iff] at h ⊢
    rw [List.getD_append _ _ _ _ hlt]
    rcases h with hg | ⟨k, hk, hne, hr⟩
    · exact Or.inl hg
    · exact Or.inr ⟨k, by simp only [List.length_append, List.length_singleton]; omega,
        hne, by rwa [List.getD_append _ _ _ _ hk]⟩
  · have hieq : i = placed.length := by omega
    subst hieq
    have hgetnb : (placed ++ [nb]).getD placed.length default = nb := by
      rw [List.getD_append_right placed [nb] default placed.length le_rfl]
      simp
    rw [hasSupport_iff] at hnb ⊢
    rw [hgetnb]
    rcases hnb with hg | ⟨k, hk, _, hr⟩
    · exact Or.inl hg
    · exact Or.inr ⟨k, by simp only [List.length_append, List.length_singleton]; omega,
        by omega, by rwa [List.getD_append _ _ _ _ hk]⟩

theorem fixLoop_allSupported (blocks : List VBlock) (idxs : List Nat) :
    ∀ placed : List VBlock, allSupported placed →
      allSupported (fixLoop blocks idxs placed) := by
  induction idxs with
  | nil => intro placed h; exact h
  | cons idx rest ih =>
    intro placed h
    exact ih _ (allSupported_append _ _ h (fixOne_supported _ _))

theorem fixLoop_length (blocks : List VBlock) (idxs : List Nat) :
    ∀ placed : List VBlock,
      (fixLoop blocks idxs placed).length = placed.length + idxs.length := by
  induction idxs with
  | nil => intro placed; simp [fixLoop]
  | cons idx rest ih =>
    intro placed
    rw [fixLoop, ih]
    simp
    omega

theorem insertByY_length (p : Nat × ℚ) (l : List (Nat × ℚ)) :
    (insertByY p l).length = l.length + 1 := by
  induction l with
  | nil => rfl
  | cons q rest ih =>
    rw [insertByY]
    split_ifs <;> simp [ih]

theorem sortByY_length (l : List (Nat × ℚ)) : (sortByY l).length = l.length := by
  induction l with
  | nil => rfl
  | cons p rest ih => rw [sortByY, insertByY_length, ih, List.length_cons]

theorem indexBlocks_length (l : List VBlock) : ∀ i, (indexBlocks l i).length = l.length := by
  induction l with
  | nil => intro i; rfl
  | cons b rest ih => intro i; rw [indexBlocks, List.length_cons, List.length_cons, ih]

theorem sortedIndices_length (blocks : List VBlock) :
    (sortedIndices blocks).length = blocks.length := by
  rw [sortedIndices, List.length_map, sortByY_length, indexBlocks_length]

theorem fixFloatingBlocks_length (blocks : List VBlock) :
    (fixFloatingBlocks blocks).length = blocks.length := by
  rw [fixFloatingBlocks, fixLoop_length, sortedIndices_length]
  simp

/-- C4 (amended): re-validating after a single `fix` pass reports a valid
structure (`validate(fix(bodies)).valid == true`) for any input with at
least one ground-reachable body — but `fix` is not idempotent: a second
pass can move bodies again (see the counterexample). -/
theorem validate_after_fix_valid (blocks : List VBlock)
    (h : ∃ i, i < blocks.length ∧ GroundReachable blocks i) :
    (validateStructure (fixFloatingBlocks blocks)).valid = true := by
  obtain ⟨i, hi, _⟩ := h
  rw [validateStructure_valid_iff]
  constructor
  · intro hempty
    have hlen := fixFloatingBlocks_length blocks
    rw [hempty] at hlen
    simp at hlen
    omega
  · intro k hk
    have hall := fixLoop_allSupported blocks (sortedIndices blocks) [] allSupported_nil
    exact hall k hk

/-- C4 witness: the amended theorem applied to a concrete single grounded
cube. -/
theorem validate_after_fix_valid_witness :
    (validateStructure (fixFloatingBlocks [groundedUnit])).valid = true :=
  validate_after_fix_valid [groundedUnit]
    ⟨0, by norm_num,
      GroundReachable.ground 0 (by norm_num)
        (by norm_num [onGround, groundedUnit, abs_lt, le_abs])⟩

theorem insertByY_perm (p : Nat × ℚ) (l : List (Nat × ℚ)) :
    (insertByY p l).Perm (p :: l) := by
  induction l with
  | nil => exact List.Perm.refl _
  | cons q rest ih =>
    rw [insertByY]
    split_ifs with h
    · exact List.Perm.refl _
    · exact (List.Perm.cons q ih).trans (List.Perm.swap p q rest)

theorem sortByY_perm (l : List (Nat × ℚ)) : (sortByY l).Perm l := by
  induction l with
  | nil => exact List.Perm.refl _
  | cons p rest ih => exact (insertByY_perm p (sortByY rest)).trans (List.Perm.cons p ih)

theorem insertByY_sorted (p : Nat × ℚ) (l : List (Nat × ℚ))
    (h : l.Pairwise (fun a b => a.2 ≤ b.2)) :
    (insertByY p l).Pairwise (fun a b => a.2 ≤ b.2) := by
  induction l with
  | nil => simp [insertByY]
  | cons q rest ih =>
    rw [insertByY]
    rw [List.pairwise_cons] at h
    split_ifs with hle
    · rw [List.pairwise_cons]
      refine ⟨?_, List.pairwise_cons.mpr h⟩
      intro x hx
      rcases List.mem_cons.mp hx with hx | hx
      · rw [hx]; exact hle
      · exact le_trans hle (h.1 x hx)
    · rw [List.pairwise_cons]
      refine ⟨?_, ih h.2⟩
      intro x hx
      rcases List.mem_cons.mp ((insertByY_perm p rest).mem_iff.mp hx) with hx | hx
      · rw [hx]; exact le_of_not_le hle
      · exact h.1 x hx

theorem sortByY_sorted (l : List (Nat × ℚ)) :
    (sortByY l).Pairwise (fun a b => a.2 ≤ b.2) := by
  induction l with
  | nil => simp [sortByY]
  | cons p rest ih => exact insertByY_sorted p (sortByY rest) ih

theorem indexBlocks_map_fst (l : List VBlock) :
    ∀ i, (indexBlocks l i).map Prod.fst = List.range' i l.length := by
  induction l with
  | nil => intro i; rfl
  | cons b rest ih =>
    intro i
    rw [indexBlocks, List.map_cons, ih, List.length_cons, List.range'_succ]

theorem sortedIndices_perm (blocks : List VBlock) :
    (sortedIndices blocks).Perm (List.range blocks.length) := by
  have h1 : (sortedIndices blocks).Perm ((indexBlocks blocks 0).map Prod.fst) :=
    (sortByY_perm (indexBlocks blocks 0)).map Prod.fst
  rw [indexBlocks_map_fst blocks 0] at h1
  rw [List.range_eq_range']
  exact h1

theorem indexBlocks_mem (l : List VBlock) :
    ∀ (i0 : Nat) (p : Nat × ℚ), p ∈ indexBlocks l i0 →
      ∃ k, k < l.length ∧ p.1 = i0 + k ∧ p.2 = (l.getD k default).pos.y := by
  induction l with
  | nil => intro i0 p h; simp [indexBlocks] at h
  | cons b rest ih =>
    intro i0 p h
    rw [indexBlocks, List.mem_cons] at h
    rcases h with h | h
    · exact ⟨0, by simp, by simp [h], by simp [h]⟩
    · obtain ⟨k, hk, h1, h2⟩ := ih (i0 + 1) p h
      exact ⟨k + 1, by simpa using hk, by omega, by simpa using h2⟩

theorem fixOne_setY_zero (placed : List VBlock) (block : VBlock) :
    (fixOne placed block).setY 0 = block.setY 0 := by
  unfold fixOne
  split <;> rfl

theorem fixLoop_mem (blocks : List VBlock) (idxs : List Nat) :
    ∀ (placed : List VBlock) (b : VBlock), b ∈ fixLoop blocks idxs placed →
      b ∈ placed ∨ ∃ idx, idx ∈ idxs ∧ b.setY 0 = (blocks.getD idx default).setY 0 := by
  induction idxs with
  | nil => intro placed b h; exact Or.inl h
  | cons idx rest ih =>
    intro placed b h
    rcases ih _ b h with h2 | ⟨idx2, hmem, heq⟩
    · rcases List.mem_append.mp h2 with h3 | h3
      · exact Or.inl h3
      · refine Or.inr ⟨idx, List.mem_cons_self idx rest, ?_⟩
        rw [List.mem_singleton.mp h3]
        exact fixOne_setY_zero _ _
    · exact Or.inr ⟨idx2, List.mem_cons_of_mem idx hmem, heq⟩

/-- C9: `fix` reorders the bodies into non-decreasing order of their pre-fix
`pos[1]`: the processing order is a permutation of all indices, the original
heights along it are non-decreasing, the output has the same length, each
output body is an input body with at most its `pos[1]` changed — and a
concrete input listed top-first comes back with its bodies at different
indices than they went in. -/
theorem fix_reorders_by_height :
    (∀ blocks : List VBlock,
      (sortedIndices blocks).Perm (List.range blocks.length) ∧
      List.Pairwise (fun a b => a ≤ b)
        ((sortedIndices blocks).map (fun i => (blocks.getD i default).pos.y)) ∧
      (fixFloatingBlocks blocks).length = blocks.length ∧
      ∀ b ∈ fixFloatingBlocks blocks, ∃ i, i < blocks.length ∧
        b.setY 0 = (blocks.getD i default).setY 0) ∧
    fixFloatingBlocks highThenLow = [wideSlab, highCube.setY (3 / 2)] := by
  constructor
  · intro blocks
    refine ⟨sortedIndices_perm blocks, ?_, fixFloatingBlocks_length blocks, ?_⟩
    · rw [sortedIndices, List.map_map]
      have hmap : ((sortByY (indexBlocks blocks 0)).map
            ((fun i => (blocks.getD i default).pos.y) ∘ Prod.fst)) =
          (sortByY (indexBlocks blocks 0)).map Prod.snd := by
        apply List.map_congr_left
        intro p hp
        have hp2 : p ∈ indexBlocks blocks 0 := (sortByY_perm _).mem_iff.mp hp
        obtain ⟨k, hk, h1, h2⟩ := indexBlocks_mem blocks 0 p hp2
        simp only [Function.comp_apply, h2, h1, Nat.zero_add]
      rw [hmap, List.pairwise_map]
      exact sortByY_sorted _
    · intro b hb
      rcases fixLoop_mem blocks (sortedIndices blocks) [] b hb with h | ⟨idx, hmem, heq⟩
      · simp at h
      · have : idx ∈ List.range blocks.length := (sortedIndices_perm blocks).mem_iff.mp hmem
        exact ⟨idx, List.mem_range.mp this, heq⟩
  · norm_num [fixFloatingBlocks, fixLoop, fixOne, sortedIndices, sortByY, insertByY,
      indexBlocks, hasSupport, supportScan, restsOn, verticallyAligned, footprintsOverlap,
      checkOverlap, onGround, findSupportSurface, VBlock.setY, highThenLow, highCube,
      wideSlab, abs_lt, le_abs]

/-- C9 witness: the general part applied to the concrete two-block input. -/
theorem fix_reorders_by_height_witness :
    (sortedIndices highThenLow).Perm (List.range highThenLow.length) :=
  (fix_reorders_by_height.1 highThenLow).1

/-- C4 counterexample: tower + shelf + ledge is a finite, non-degenerate
input whose first body is grounded, yet `fix(fix(bodies))` moves a body
again: after one pass the thin ledge (footprint x = 1.5) sits at y = 2,
supported by the lifted shelf at y = 2.025 — the supporter is *above* the
supported body, so the second pass (sorted by the new heights) processes
the ledge before its supporter and drops it to the ground (y = 0.025). -/
theorem fix_not_idempotent :
    GroundReachable towerShelfLedge 0 ∧
    fixFloatingBlocks towerShelfLedge =
      [towerBlock, ⟨"cube", ⟨3 / 4, 81 / 40, 0⟩, ⟨1, 1 / 20, 1⟩⟩, ledgeBlock] ∧
    fixFloatingBlocks (fixFloatingBlocks towerShelfLedge) =
      [towerBlock, ⟨"cube", ⟨3 / 2, 1 / 40, 0⟩, ⟨1, 1 / 20, 1⟩⟩,
       ⟨"cube", ⟨3 / 4, 81 / 40, 0⟩, ⟨1, 1 / 20, 1⟩⟩] := by
  refine ⟨GroundReachable.ground 0 (by norm_num [towerShelfLedge])
    (by norm_num [towerShelfLedge, towerBlock, onGround, abs_lt, le_abs]), ?_, ?_⟩ <;>
    norm_num [fixFloatingBlocks, fixLoop, fixOne, sortedIndices, sortByY, insertByY,
      indexBlocks, hasSupport, supportScan, restsOn, verticallyAligned, footprintsOverlap,
      checkOverlap, onGround, findSupportSurface, VBlock.setY, towerShelfLedge,
      towerBlock, shelfBlock, ledgeBlock, abs_lt, le_abs]

end StructuraXR
